import Mathlib

/-!
Shallow embedding of the offline-first sync engine of this repository:
the Dexie-backed local replica (client/src/db/dexie.ts), the
SyncService push/pull orchestrator (client/src/services/syncService.ts),
and the Express item routes with their Mongoose schema
(server/src/routes/items.ts, server/src/models/Item.ts).

Dates are modelled as naturals (milliseconds since epoch); JavaScript
Date comparison on them is Nat comparison.  Async functions are
modelled as pure state transformers; a step that can reject carries its
outcome in an environment record, and a thrown value is an
Except.error holding the message together with the client state at the
throw point, so that try/catch placement can be mirrored exactly.
-/

namespace PWA

/-- A record in the client replica, interface Item of dexie.ts.
The optional `deleted` flag of the interface is modelled as a plain
Bool (JavaScript treats a missing flag as falsy). -/
structure Item where
  id : String
  title : String
  description : String
  imageUrl : Option String
  createdAt : Nat
  updatedAt : Nat
  synced : Bool
  deleted : Bool
  deriving Repr, DecidableEq

/-- Client-side persistent state: the items table plus the singleton
syncMetadata row (`none` when the table is empty, i.e. never synced).
The unused pendingChanges field of SyncMetadata is omitted. -/
structure ClientState where
  items : List Item
  lastSync : Option Nat
  deriving Repr, DecidableEq

/-- db.items.get(id): first record with the given primary key. -/
def dbGet (items : List Item) (id : String) : Option Item :=
  items.find? (fun it => it.id = id)

/-- db.items.put(it): replace the record with the same primary key
(keys are unique in the table), or append it when absent. -/
def dbPut (items : List Item) (it : Item) : List Item :=
  match items with
  | [] => [it]
  | x :: xs => if x.id = it.id then it :: xs else x :: dbPut xs it

/-- Partial\<Item\> as passed to db.items.update: every field may be
present or absent; the id (primary key) is never passed by any caller. -/
structure ItemUpdates where
  title : Option String := none
  description : Option String := none
  imageUrl : Option (Option String) := none
  createdAt : Option Nat := none
  updatedAt : Option Nat := none
  synced : Option Bool := none
  deleted : Option Bool := none
  deriving Repr, DecidableEq

/-- Merge an update object into a record field by field. -/
def applyUpdates (it : Item) (u : ItemUpdates) : Item :=
  { it with
    title := u.title.getD it.title
    description := u.description.getD it.description
    imageUrl := u.imageUrl.getD it.imageUrl
    createdAt := u.createdAt.getD it.createdAt
    updatedAt := u.updatedAt.getD it.updatedAt
    synced := u.synced.getD it.synced
    deleted := u.deleted.getD it.deleted }

/-- db.items.update(id, changes): Dexie merges the changes into the
record with the given key and resolves with the number of affected
records; a missing key affects zero records and is not an error. -/
def dbUpdate (items : List Item) (id : String) (u : ItemUpdates) : List Item :=
  match dbGet items id with
  | none => items
  | some it => dbPut items (applyUpdates it u)

/-- addItem of dexie.ts: materialize the new record with
createdAt = updatedAt = now, synced = false, deleted = false and add it.
The generated id is supplied as an argument (in the source it is
item_Date.now()_randomsuffix). -/
def addItem (items : List Item) (id title description : String)
    (imageUrl : Option String) (now : Nat) : List Item × Item :=
  let newItem : Item :=
    { id := id, title := title, description := description,
      imageUrl := imageUrl, createdAt := now, updatedAt := now,
      synced := false, deleted := false }
  (items ++ [newItem], newItem)

/-- updateItem of dexie.ts: db.items.update(id, \x7b...updates,
updatedAt: new Date(), synced: false\x7d) — the spread puts the caller's
fields first, then forces updatedAt := now and synced := false. -/
def updateItem (items : List Item) (id : String) (updates : ItemUpdates)
    (now : Nat) : List Item :=
  dbUpdate items id { updates with updatedAt := some now, synced := some false }

/-- deleteItem of dexie.ts: db.items.update(id, \x7bdeleted: true,
synced: false, updatedAt: new Date()\x7d) — a tombstone, not a removal. -/
def deleteItem (items : List Item) (id : String) (now : Nat) : List Item :=
  dbUpdate items id
    { deleted := some true, synced := some false, updatedAt := some now }

/-- getUnsyncedItems of dexie.ts: filter(item =\> item.synced === false). -/
def getUnsyncedItems (items : List Item) : List Item :=
  items.filter (fun it => it.synced = false)

/-- markItemsAsSynced of dexie.ts: bulkUpdate setting synced := true and
updatedAt := new Date() for each listed key. -/
def markItemsAsSynced (items : List Item) (ids : List String) (now : Nat) :
    List Item :=
  items.map (fun it =>
    if ids.contains it.id then { it with synced := true, updatedAt := now }
    else it)

/-- getLastSyncTime of dexie.ts: first syncMetadata row, or null. -/
def getLastSyncTime (st : ClientState) : Option Nat :=
  st.lastSync

/-- updateLastSyncTime of dexie.ts: writes lastSyncTime := new Date()
(the CLIENT clock) whether the row exists or is created; the function
takes no timestamp argument. -/
def updateLastSyncTime (st : ClientState) (clientNow : Nat) : ClientState :=
  { st with lastSync := some clientNow }

/-! ## SyncService (client/src/services/syncService.ts) -/

/-- Result object of syncToServer / syncFromServer: \x7bsuccess, count,
error?\x7d where count is the synced/downloaded field. -/
structure PhaseResult where
  success : Bool
  count : Nat
  error : Option String
  deriving Repr, DecidableEq

/-- Result object of fullSync: \x7bsuccess, synced, downloaded\x7d
(phase error strings are dropped by the source). -/
structure FullResult where
  success : Bool
  synced : Nat
  downloaded : Nat
  deriving Repr, DecidableEq

/-- Outcome of the awaited api.syncItems call: a thrown transport error,
or a parsed response \x7bsuccess, synced?, error?\x7d. -/
inductive PushGateway where
  | throws (msg : String)
  | response (success : Bool) (syncedCount : Option Nat) (error : Option String)
  deriving Repr, DecidableEq

/-- Outcome of the awaited api.getItemsForSync call: a thrown transport
error, or a parsed response \x7bsuccess, data?, error?, timestamp?\x7d.
The timestamp is the server clock reading the route attaches. -/
inductive PullGateway where
  | throws (msg : String)
  | response (success : Bool) (data : Option (List Item)) (error : Option String)
      (timestamp : Option Nat)
  deriving Repr, DecidableEq

/-- Environment of one syncToServer call: the gateway outcome, whether
each awaited replica operation rejects, and the client clock. -/
structure PushEnv where
  getUnsyncedThrows : Option String := none
  gateway : PushGateway
  markSyncedThrows : Option String := none
  updateLastSyncThrows : Option String := none
  clientNow : Nat
  deriving Repr, DecidableEq

/-- Environment of one syncFromServer call. -/
structure PullEnv where
  gateway : PullGateway
  updateLastSyncThrows : Option String := none
  clientNow : Nat
  deriving Repr, DecidableEq

/-- A value thrown inside a try block: the message together with the
client state at the throw point. -/
abbrev Thrown := String × ClientState

/-- The try block of syncToServer: read the unsynced items, return
early when there are none, send the batch, and on a success response
mark the submitted ids synced and advance lastSyncTime.  An
Except.error is a value thrown inside the block. -/
def syncToServerBody (st : ClientState) (env : PushEnv) :
    Except Thrown (PhaseResult × ClientState) :=
  match env.getUnsyncedThrows with
  | some msg => .error (msg, st)
  | none =>
    let unsynced := getUnsyncedItems st.items
    if unsynced.length = 0 then
      .ok ({ success := true, count := 0, error := none }, st)
    else
      match env.gateway with
      | .throws msg => .error (msg, st)
      | .response success syncedCount respError =>
        if success then
          match env.markSyncedThrows with
          | some msg => .error (msg, st)
          | none =>
            let ids := unsynced.map (fun it => it.id)
            let st1 := { st with items := markItemsAsSynced st.items ids env.clientNow }
            match env.updateLastSyncThrows with
            | some msg => .error (msg, st1)
            | none =>
              let st2 := updateLastSyncTime st1 env.clientNow
              .ok ({ success := true, count := syncedCount.getD 0, error := none }, st2)
        else
          .ok ({ success := false, count := 0, error := respError }, st)

/-- syncToServer: the isSyncing guard (checked and set before the try
block), the try body, the catch turning a thrown value into a failed
result, and the finally clearing the flag on every path that entered
the try.  Returns (result, flag after the call, client state). -/
def syncToServer (flag : Bool) (st : ClientState) (env : PushEnv) :
    PhaseResult × Bool × ClientState :=
  if flag then
    ({ success := false, count := 0, error := some "Sync already in progress" },
     flag, st)
  else
    match syncToServerBody st env with
    | .ok (r, st1) => (r, false, st1)
    | .error (msg, st1) =>
      ({ success := false, count := 0, error := some msg }, false, st1)

/-- One iteration of the pull loop of syncFromServer:
db.items.put(\x7b...item, synced: true\x7d) when no local record with
that id exists or the remote updatedAt is strictly greater; otherwise
leave the replica alone. -/
def pullStep (acc : List Item) (it : Item) : List Item :=
  match dbGet acc it.id with
  | none => dbPut acc { it with synced := true }
  | some existing =>
    if existing.updatedAt < it.updatedAt then
      dbPut acc { it with synced := true }
    else acc

/-- The last-write-wins application loop of syncFromServer over the
whole pulled list. -/
def applyPulled (items : List Item) (pulled : List Item) : List Item :=
  pulled.foldl pullStep items

/-- The try block of syncFromServer: read lastSyncTime, fetch the
delta, and when the response has success and data, apply the records
and advance lastSyncTime (via updateLastSyncTime, i.e. to the client
clock). -/
def syncFromServerBody (st : ClientState) (env : PullEnv) :
    Except Thrown (PhaseResult × ClientState) :=
  match env.gateway with
  | .throws msg => .error (msg, st)
  | .response success data respError _timestamp =>
    match success, data with
    | true, some pulled =>
      let st1 := { st with items := applyPulled st.items pulled }
      match env.updateLastSyncThrows with
      | some msg => .error (msg, st1)
      | none =>
        let st2 := updateLastSyncTime st1 env.clientNow
        .ok ({ success := true, count := pulled.length, error := none }, st2)
    | _, _ => .ok ({ success := false, count := 0, error := respError }, st)

/-- syncFromServer: the try body with its catch; no guard and no flag. -/
def syncFromServer (st : ClientState) (env : PullEnv) :
    PhaseResult × ClientState :=
  match syncFromServerBody st env with
  | .ok (r, st1) => (r, st1)
  | .error (msg, st1) =>
    ({ success := false, count := 0, error := some msg }, st1)

/-- fullSync: push then pull, unconditionally, then combine.  The
Except return type records whether an exception escapes the call: both
phases catch internally, so the body never produces Except.error, but
the type mirrors the fact that the awaited calls could in principle
reject. -/
def fullSync (flag : Bool) (st : ClientState) (penv : PushEnv) (plenv : PullEnv) :
    Except Thrown (FullResult × Bool × ClientState) :=
  let (upload, flag1, st1) := syncToServer flag st penv
  let (download, st2) := syncFromServer st1 plenv
  .ok ({ success := upload.success && download.success,
         synced := upload.count,
         downloaded := download.count }, flag1, st2)

/-! ## Server (server/src/routes/items.ts, server/src/models/Item.ts) -/

/-- A stored Mongo document for ItemSchema: id, title, description,
imageUrl?, userId?, syncedAt, plus the createdAt/updatedAt pair managed
by timestamps: true.  The schema has NO deleted and NO synced path, and
strict mode (the Mongoose default) drops those fields from writes. -/
structure ServerItem where
  id : String
  title : String
  description : String
  imageUrl : Option String
  createdAt : Nat
  updatedAt : Nat
  syncedAt : Nat
  deriving Repr, DecidableEq

/-- One findOneAndUpdate(\x7bid\x7d, \x7b...item, syncedAt: now\x7d,
\x7bupsert: true\x7d) of the POST /sync route: overwrite the schema
fields of the existing document, or insert a fresh one; timestamps:
true sets updatedAt (and createdAt on insert) to the server clock.
Fields outside the schema — deleted, synced — are discarded. -/
def serverUpsertOne (store : List ServerItem) (it : Item) (serverNow : Nat) :
    List ServerItem :=
  match store.find? (fun s => s.id = it.id) with
  | some _ =>
    store.map (fun s =>
      if s.id = it.id then
        { s with
          title := it.title
          description := it.description
          imageUrl := it.imageUrl
          syncedAt := serverNow
          updatedAt := serverNow }
      else s)
  | none =>
    store ++ [{ id := it.id
                title := it.title
                description := it.description
                imageUrl := it.imageUrl
                createdAt := serverNow
                updatedAt := serverNow
                syncedAt := serverNow }]

/-- POST /sync: upsert every item of the batch. -/
def serverBatchUpsert (store : List ServerItem) (batch : List Item)
    (serverNow : Nat) : List ServerItem :=
  batch.foldl (fun acc it => serverUpsertOne acc it serverNow) store

/-- Insert a document into a list kept sorted by createdAt descending. -/
def insertDesc (x : ServerItem) : List ServerItem → List ServerItem
  | [] => [x]
  | y :: ys =>
    if y.createdAt ≤ x.createdAt then x :: y :: ys else y :: insertDesc x ys

/-- Sort documents by createdAt descending (newest first), the order
of .sort(\x7bcreatedAt: -1\x7d). -/
def sortByCreatedAtDesc : List ServerItem → List ServerItem
  | [] => []
  | x :: xs => insertDesc x (sortByCreatedAtDesc xs)

/-- GET / : Item.find().sort(\x7bcreatedAt: -1\x7d) — every stored
document, newest first; no filter of any kind. -/
def serverGetAll (store : List ServerItem) : List ServerItem :=
  sortByCreatedAtDesc store

/-- GET /sync : Item.find(\x7bupdatedAt: \x7b$gt: lastSync\x7d\x7d) (or
all documents when no lastSync is given), newest first. -/
def serverGetSince (store : List ServerItem) (lastSync : Option Nat) :
    List ServerItem :=
  let base : List ServerItem :=
    match lastSync with
    | some t => store.filter (fun s => t < s.updatedAt)
    | none => store
  sortByCreatedAtDesc base

/-- Modelled from the spec: the mutateLocal(id, changes) contract of
§4.1 — merge the changes into the existing record, set updatedAt = now
and synced = false, and error with NotFound when the id is absent.
Stated separately from updateItem (the code) so the two can be
compared; the repository itself has no such error path. -/
def mutateLocalSpec (items : List Item) (id : String) (u : ItemUpdates)
    (now : Nat) : Except String (List Item) :=
  match dbGet items id with
  | none => .error "NotFound"
  | some it =>
    .ok (dbPut items
      { applyUpdates it u with updatedAt := now, synced := false })

/-! ## Concrete inputs used in witnesses and counterexamples -/

/-- A local record, freshly created and still dirty. -/
def itemA : Item :=
  { id := "a", title := "t", description := "d", imageUrl := none,
    createdAt := 1, updatedAt := 1, synced := false, deleted := false }

/-- A remote copy of the same record with a strictly newer updatedAt. -/
def itemARemote : Item := { itemA with updatedAt := 2 }

/-- The record after a local delete: tombstoned and dirty. -/
def itemATomb : Item := { itemA with deleted := true, updatedAt := 3 }

/-- Replica holding the dirty record. -/
def stA : ClientState := { items := [itemA], lastSync := none }

/-- Replica holding the tombstoned record. -/
def stTomb : ClientState := { items := [itemATomb], lastSync := none }

/-- Empty replica that has never synced. -/
def stEmpty : ClientState := { items := [], lastSync := none }

/-- Remote store already holding the record. -/
def store0 : List ServerItem :=
  [{ id := "a", title := "t", description := "d", imageUrl := none,
     createdAt := 1, updatedAt := 1, syncedAt := 1 }]

/-- Push environment: the gateway accepts the batch. -/
def pushOk : PushEnv :=
  { gateway := .response true (some 1) none, clientNow := 7 }

/-- Push environment: the batch-upsert call throws. -/
def pushThrows : PushEnv :=
  { gateway := .throws "Network error", clientNow := 7 }

/-- Pull environment: the delta fetch returns the newer remote copy,
with a server timestamp of 99 while the client clock reads 5. -/
def pullOkA : PullEnv :=
  { gateway := .response true (some [itemARemote]) none (some 99),
    clientNow := 5 }

/-- Pull environment: a successful but empty delta. -/
def pullEmpty : PullEnv :=
  { gateway := .response true (some []) none (some 99), clientNow := 5 }

/-- Pull environment: the fetch throws. -/
def pullThrows : PullEnv :=
  { gateway := .throws "Failed to fetch", clientNow := 5 }

/-- An update object that even tries to smuggle synced := true in. -/
def updates0 : ItemUpdates := { title := some "u", synced := some true }

/-! ## Lemmas about the replica primitives -/

theorem dbGet_cons (x : Item) (xs : List Item) (k : String) :
    dbGet (x :: xs) k = if x.id = k then some x else dbGet xs k := by
  by_cases h : x.id = k <;> simp [dbGet, h]

theorem dbGet_eq_id {items : List Item} {k : String} {it : Item}
    (h : dbGet items k = some it) : it.id = k := by
  simpa using List.find?_some h

theorem dbGet_dbPut_self (items : List Item) (it : Item) :
    dbGet (dbPut items it) it.id = some it := by
  induction items with
  | nil => simp [dbGet, dbPut]
  | cons x xs ih =>
    by_cases h : x.id = it.id
    · simp [dbPut, h, dbGet_cons]
    · simp only [dbPut, if_neg h]
      rw [dbGet_cons, if_neg h]
      exact ih

theorem dbGet_dbPut_ne (items : List Item) (it : Item) {k : String}
    (h : k ≠ it.id) : dbGet (dbPut items it) k = dbGet items k := by
  induction items with
  | nil =>
    simp only [dbPut, dbGet_cons]
    rw [if_neg (fun hh => h hh.symm)]
  | cons x xs ih =>
    by_cases hx : x.id = it.id
    · simp only [dbPut, if_pos hx]
      rw [dbGet_cons, dbGet_cons, if_neg (fun hh => h hh.symm),
        if_neg (fun hh => h (hx ▸ hh).symm)]
    · simp only [dbPut, if_neg hx]
      rw [dbGet_cons, dbGet_cons]
      by_cases hk : x.id = k
      · rw [if_pos hk, if_pos hk]
      · rw [if_neg hk, if_neg hk, ih]

theorem pullStep_ne (items : List Item) (r : Item) {k : String}
    (h : r.id ≠ k) : dbGet (pullStep items r) k = dbGet items k := by
  have hid : ({ r with synced := true } : Item).id = r.id := rfl
  unfold pullStep
  cases hg : dbGet items r.id with
  | none => exact dbGet_dbPut_ne _ _ (hid ▸ fun hh => h hh.symm)
  | some e =>
    by_cases hc : e.updatedAt < r.updatedAt
    · simp only [if_pos hc]
      exact dbGet_dbPut_ne _ _ (hid ▸ fun hh => h hh.symm)
    · simp only [if_neg hc]

theorem applyPulled_cons (items : List Item) (r : Item) (rs : List Item) :
    applyPulled items (r :: rs) = applyPulled (pullStep items r) rs := rfl

theorem dbGet_applyPulled_of_not_mem (items rs : List Item) (k : String)
    (h : ∀ r ∈ rs, r.id ≠ k) :
    dbGet (applyPulled items rs) k = dbGet items k := by
  induction rs generalizing items with
  | nil => rfl
  | cons r rs ih =>
    rw [applyPulled_cons, ih _ (fun r' hr' => h r' (List.mem_cons_of_mem _ hr')),
      pullStep_ne _ _ (h r (List.mem_cons_self _ _))]

theorem dbGet_applyPulled_preserved (items rs : List Item) (k : String)
    (e : Item) (he : dbGet items k = some e)
    (h : ∀ r ∈ rs, r.id = k → ¬ e.updatedAt < r.updatedAt) :
    dbGet (applyPulled items rs) k = some e := by
  induction rs generalizing items with
  | nil => exact he
  | cons r rs ih =>
    rw [applyPulled_cons]
    by_cases hid : r.id = k
    · have he2 : dbGet items r.id = some e := by rw [hid]; exact he
      have hstep : pullStep items r = items := by
        unfold pullStep
        simp only [he2]
        exact if_neg (h r (List.mem_cons_self _ _) hid)
      rw [hstep]
      exact ih _ he (fun r' hr' => h r' (List.mem_cons_of_mem _ hr'))
    · have he' : dbGet (pullStep items r) k = some e := by
        rw [pullStep_ne _ _ hid, he]
      exact ih _ he' (fun r' hr' => h r' (List.mem_cons_of_mem _ hr'))

theorem dbGet_applyPulled_applies (items rs : List Item) (r : Item)
    (hnd : (rs.map (fun x => x.id)).Nodup) (hr : r ∈ rs)
    (happ : dbGet items r.id = none ∨
      ∃ e, dbGet items r.id = some e ∧ e.updatedAt < r.updatedAt) :
    dbGet (applyPulled items rs) r.id = some { r with synced := true } := by
  induction rs generalizing items with
  | nil => cases hr
  | cons x xs ih =>
    rw [List.map_cons] at hnd
    rw [applyPulled_cons]
    rcases List.mem_cons.mp hr with rfl | hr'
    · have hstep : dbGet (pullStep items r) r.id = some { r with synced := true } := by
        unfold pullStep
        rcases happ with hnone | ⟨e, he, hlt⟩
        · simp only [hnone]
          exact dbGet_dbPut_self items { r with synced := true }
        · simp only [he, if_pos hlt]
          exact dbGet_dbPut_self items { r with synced := true }
      have hni : ∀ r' ∈ xs, r'.id ≠ r.id := by
        intro r' hr' heq
        exact (List.nodup_cons.mp hnd).1 (heq ▸ List.mem_map_of_mem _ hr')
      rw [dbGet_applyPulled_of_not_mem _ _ _ hni, hstep]
    · have hxne : x.id ≠ r.id := by
        intro heq
        exact (List.nodup_cons.mp hnd).1 (heq ▸ List.mem_map_of_mem _ hr')
      have happ' : dbGet (pullStep items x) r.id = dbGet items r.id :=
        pullStep_ne _ _ hxne
      rw [← happ'] at happ
      exact ih _ (List.nodup_cons.mp hnd).2 hr' happ

theorem dbGet_applyPulled_skips (items rs : List Item) (r e : Item)
    (hnd : (rs.map (fun x => x.id)).Nodup) (hr : r ∈ rs)
    (he : dbGet items r.id = some e) (hge : ¬ e.updatedAt < r.updatedAt) :
    dbGet (applyPulled items rs) r.id = some e := by
  refine dbGet_applyPulled_preserved _ _ _ _ he (fun r' hr' hid => ?_)
  have : r' = r := List.inj_on_of_nodup_map hnd hr' hr hid
  rw [this]
  exact hge

theorem dbGet_self_of_nodup {items : List Item} {a : Item}
    (hnd : (items.map (fun x => x.id)).Nodup) (ha : a ∈ items) :
    dbGet items a.id = some a := by
  induction items with
  | nil => cases ha
  | cons x xs ih =>
    rw [List.map_cons] at hnd
    rcases List.mem_cons.mp ha with rfl | ha'
    · rw [dbGet_cons, if_pos rfl]
    · have hne : x.id ≠ a.id := fun heq =>
        (List.nodup_cons.mp hnd).1 (heq ▸ List.mem_map_of_mem _ ha')
      rw [dbGet_cons, if_neg hne]
      exact ih (List.nodup_cons.mp hnd).2 ha'

theorem dbGet_markSynced (items : List Item) (ids : List String) (now : Nat)
    (k : String) :
    dbGet (markItemsAsSynced items ids now) k =
      (dbGet items k).map (fun it =>
        if ids.contains it.id then { it with synced := true, updatedAt := now }
        else it) := by
  induction items with
  | nil => rfl
  | cons x xs ih =>
    show dbGet ((if ids.contains x.id then
        { x with synced := true, updatedAt := now } else x) ::
        markItemsAsSynced xs ids now) k = _
    by_cases hc : x.id ∈ ids
    · rw [if_pos (by simpa using hc)]
      by_cases hk : x.id = k
      · rw [dbGet_cons, if_pos hk, dbGet_cons, if_pos hk]
        simp [hc]
      · rw [dbGet_cons, if_neg hk, dbGet_cons, if_neg hk, ih]
    · rw [if_neg (by simpa using hc)]
      by_cases hk : x.id = k
      · rw [dbGet_cons, if_pos hk, dbGet_cons, if_pos hk]
        simp [hc]
      · rw [dbGet_cons, if_neg hk, dbGet_cons, if_neg hk, ih]

/-! ## Phase-level equations of the sync service -/

theorem syncToServer_rejected (st : ClientState) (env : PushEnv) :
    syncToServer true st env =
      ({ success := false, count := 0, error := some "Sync already in progress" },
       true, st) := rfl

theorem syncToServer_flag_cleared (st : ClientState) (env : PushEnv) :
    (syncToServer false st env).2.1 = false := by
  unfold syncToServer
  cases h : syncToServerBody st env with
  | error e => obtain ⟨m, st1⟩ := e; simp
  | ok r => obtain ⟨a, st1⟩ := r; simp

theorem syncToServer_success_eq (st : ClientState) (env : PushEnv)
    (c : Option Nat) (e : Option String)
    (h1 : env.getUnsyncedThrows = none)
    (h2 : getUnsyncedItems st.items ≠ [])
    (h3 : env.gateway = .response true c e)
    (h4 : env.markSyncedThrows = none)
    (h5 : env.updateLastSyncThrows = none) :
    syncToServer false st env =
      ({ success := true, count := c.getD 0, error := none }, false,
       { items := markItemsAsSynced st.items
           ((getUnsyncedItems st.items).map (fun it => it.id)) env.clientNow,
         lastSync := some env.clientNow }) := by
  unfold syncToServer syncToServerBody
  rw [h1, h3]
  simp [h2, h4, h5, updateLastSyncTime, List.length_eq_zero]

theorem syncToServer_empty_eq (st : ClientState) (env : PushEnv)
    (h1 : env.getUnsyncedThrows = none)
    (h2 : getUnsyncedItems st.items = []) :
    syncToServer false st env =
      ({ success := true, count := 0, error := none }, false, st) := by
  unfold syncToServer syncToServerBody
  rw [h1]
  simp [h2]

theorem syncToServer_gateway_throws_eq (st : ClientState) (env : PushEnv)
    (m : String)
    (h1 : env.getUnsyncedThrows = none)
    (h2 : getUnsyncedItems st.items ≠ [])
    (h3 : env.gateway = .throws m) :
    syncToServer false st env =
      ({ success := false, count := 0, error := some m }, false, st) := by
  unfold syncToServer syncToServerBody
  rw [h1, h3]
  simp [h2, List.length_eq_zero]

theorem syncToServer_gateway_error_eq (st : ClientState) (env : PushEnv)
    (c : Option Nat) (e : Option String)
    (h1 : env.getUnsyncedThrows = none)
    (h2 : getUnsyncedItems st.items ≠ [])
    (h3 : env.gateway = .response false c e) :
    syncToServer false st env =
      ({ success := false, count := 0, error := e }, false, st) := by
  unfold syncToServer syncToServerBody
  rw [h1, h3]
  simp [h2, List.length_eq_zero]

theorem syncFromServer_success_eq (st : ClientState) (env : PullEnv)
    (rs : List Item) (e : Option String) (ts : Option Nat)
    (h : env.gateway = .response true (some rs) e ts)
    (hul : env.updateLastSyncThrows = none) :
    syncFromServer st env =
      ({ success := true, count := rs.length, error := none },
       { items := applyPulled st.items rs, lastSync := some env.clientNow }) := by
  unfold syncFromServer syncFromServerBody
  rw [h]
  simp [hul, updateLastSyncTime]

theorem syncFromServer_items_eq (st : ClientState) (env : PullEnv)
    (rs : List Item) (e : Option String) (ts : Option Nat)
    (h : env.gateway = .response true (some rs) e ts) :
    (syncFromServer st env).2.items = applyPulled st.items rs := by
  unfold syncFromServer syncFromServerBody
  rw [h]
  cases hu : env.updateLastSyncThrows <;> simp [updateLastSyncTime]

theorem syncFromServer_gateway_throws_eq (st : ClientState) (env : PullEnv)
    (m : String) (h : env.gateway = .throws m) :
    syncFromServer st env =
      ({ success := false, count := 0, error := some m }, st) := by
  unfold syncFromServer syncFromServerBody
  rw [h]

theorem fullSync_eq (flag : Bool) (st : ClientState) (penv : PushEnv)
    (plenv : PullEnv) :
    fullSync flag st penv plenv =
      Except.ok
        ({ success := (syncToServer flag st penv).1.success &&
             (syncFromServer (syncToServer flag st penv).2.2 plenv).1.success,
           synced := (syncToServer flag st penv).1.count,
           downloaded :=
             (syncFromServer (syncToServer flag st penv).2.2 plenv).1.count },
         (syncToServer flag st penv).2.1,
         (syncFromServer (syncToServer flag st penv).2.2 plenv).2) := rfl

/-! ## Lemmas about the server routes -/

theorem serverUpsertOne_self_any (store : List ServerItem) (it : Item)
    (t : Nat) :
    (serverUpsertOne store it t).any (fun s => s.id = it.id) = true := by
  unfold serverUpsertOne
  cases hf : store.find? (fun s => s.id = it.id) with
  | none =>
    rw [List.any_eq_true]
    exact ⟨_, List.mem_append_right _ (List.mem_singleton.mpr rfl), by simp⟩
  | some s =>
    rw [List.any_eq_true]
    have hs := List.mem_of_find?_eq_some hf
    have hsid : s.id = it.id := by simpa using List.find?_some hf
    refine ⟨_, List.mem_map_of_mem _ hs, ?_⟩
    simp [hsid]

theorem serverUpsertOne_keeps (store : List ServerItem) (it : Item) (t : Nat)
    (k : String) (h : store.any (fun s => s.id = k) = true) :
    (serverUpsertOne store it t).any (fun s => s.id = k) = true := by
  unfold serverUpsertOne
  rw [List.any_eq_true] at h
  obtain ⟨s0, hmem, hs0⟩ := h
  cases hf : store.find? (fun s => s.id = it.id) with
  | none =>
    rw [List.any_eq_true]
    exact ⟨s0, List.mem_append_left _ hmem, hs0⟩
  | some s =>
    rw [List.any_eq_true]
    refine ⟨_, List.mem_map_of_mem _ hmem, ?_⟩
    have hid : (if s0.id = it.id then
        ({ s0 with
           title := it.title
           description := it.description
           imageUrl := it.imageUrl
           syncedAt := t
           updatedAt := t } : ServerItem)
      else s0).id = s0.id := by
      by_cases hx : s0.id = it.id <;> simp [hx]
    simp only [hid]
    exact hs0

theorem serverBatchUpsert_keeps (store : List ServerItem) (batch : List Item)
    (t : Nat) (k : String) (h : store.any (fun s => s.id = k) = true) :
    (serverBatchUpsert store batch t).any (fun s => s.id = k) = true := by
  induction batch generalizing store with
  | nil => exact h
  | cons x xs ih => exact ih _ (serverUpsertOne_keeps _ _ _ _ h)

theorem serverBatchUpsert_mem_any (store : List ServerItem)
    (batch : List Item) (t : Nat) (it : Item) (h : it ∈ batch) :
    (serverBatchUpsert store batch t).any (fun s => s.id = it.id) = true := by
  induction batch generalizing store with
  | nil => cases h
  | cons x xs ih =>
    rcases List.mem_cons.mp h with rfl | h'
    · show (serverBatchUpsert (serverUpsertOne store it t) xs t).any
        (fun s => s.id = it.id) = true
      exact serverBatchUpsert_keeps _ _ _ _ (serverUpsertOne_self_any store it t)
    · exact ih _ h'

theorem insertDesc_any (x : ServerItem) (l : List ServerItem)
    (p : ServerItem → Bool) :
    (insertDesc x l).any p = (p x || l.any p) := by
  induction l with
  | nil => simp [insertDesc]
  | cons y ys ih =>
    unfold insertDesc
    by_cases hc : y.createdAt ≤ x.createdAt
    · simp [hc]
    · simp [hc, ih, Bool.or_left_comm]

theorem sortByCreatedAtDesc_any (l : List ServerItem)
    (p : ServerItem → Bool) :
    (sortByCreatedAtDesc l).any p = l.any p := by
  induction l with
  | nil => rfl
  | cons x xs ih =>
    unfold sortByCreatedAtDesc
    rw [insertDesc_any, ih, List.any_cons]

theorem serverGetAll_any_iff (store : List ServerItem) (k : String) :
    ((serverGetAll store).any (fun s => s.id = k) = true) ↔
      (store.any (fun s => s.id = k) = true) := by
  rw [serverGetAll, sortByCreatedAtDesc_any]

theorem dbGet_append_ne (items : List Item) (x : Item) {k : String}
    (h : x.id ≠ k) : dbGet (items ++ [x]) k = dbGet items k := by
  induction items with
  | nil =>
    show dbGet [x] k = dbGet [] k
    rw [dbGet_cons, if_neg h]
  | cons y ys ih =>
    show dbGet (y :: (ys ++ [x])) k = dbGet (y :: ys) k
    rw [dbGet_cons, dbGet_cons, ih]

theorem syncToServer_guthrows_eq (st : ClientState) (env : PushEnv)
    (m : String) (h1 : env.getUnsyncedThrows = some m) :
    syncToServer false st env =
      ({ success := false, count := 0, error := some m }, false, st) := by
  unfold syncToServer syncToServerBody
  rw [h1]
  simp

theorem syncToServer_msthrows_eq (st : ClientState) (env : PushEnv)
    (c : Option Nat) (e : Option String) (m : String)
    (h1 : env.getUnsyncedThrows = none)
    (h2 : getUnsyncedItems st.items ≠ [])
    (h3 : env.gateway = .response true c e)
    (h4 : env.markSyncedThrows = some m) :
    syncToServer false st env =
      ({ success := false, count := 0, error := some m }, false, st) := by
  unfold syncToServer syncToServerBody
  rw [h1, h3]
  simp [h2, h4, List.length_eq_zero]

theorem syncToServer_ulthrows_eq (st : ClientState) (env : PushEnv)
    (c : Option Nat) (e : Option String) (m : String)
    (h1 : env.getUnsyncedThrows = none)
    (h2 : getUnsyncedItems st.items ≠ [])
    (h3 : env.gateway = .response true c e)
    (h4 : env.markSyncedThrows = none)
    (h5 : env.updateLastSyncThrows = some m) :
    syncToServer false st env =
      ({ success := false, count := 0, error := some m }, false,
       { items := markItemsAsSynced st.items
           ((getUnsyncedItems st.items).map (fun it => it.id)) env.clientNow,
         lastSync := st.lastSync }) := by
  unfold syncToServer syncToServerBody
  rw [h1, h3]
  simp [h2, h4, h5, List.length_eq_zero]

/-- Every push path other than a successful upload of a non-empty
batch leaves the sync metadata untouched. -/
theorem syncToServer_meta_unchanged (st : ClientState) (env : PushEnv)
    (h : ¬(env.getUnsyncedThrows = none ∧ getUnsyncedItems st.items ≠ [] ∧
      (∃ c e, env.gateway = PushGateway.response true c e) ∧
      env.markSyncedThrows = none ∧ env.updateLastSyncThrows = none)) :
    (syncToServer false st env).2.2.lastSync = st.lastSync := by
  cases hgu : env.getUnsyncedThrows with
  | some m => rw [syncToServer_guthrows_eq st env m hgu]
  | none =>
    by_cases hd : getUnsyncedItems st.items = []
    · rw [syncToServer_empty_eq st env hgu hd]
    · cases hgw : env.gateway with
      | throws m => rw [syncToServer_gateway_throws_eq st env m hgu hd hgw]
      | response su c e =>
        cases su with
        | false => rw [syncToServer_gateway_error_eq st env c e hgu hd hgw]
        | true =>
          cases hms : env.markSyncedThrows with
          | some m => rw [syncToServer_msthrows_eq st env c e m hgu hd hgw hms]
          | none =>
            cases hul : env.updateLastSyncThrows with
            | some m => rw [syncToServer_ulthrows_eq st env c e m hgu hd hgw hms hul]
            | none => exact absurd ⟨hgu, hd, ⟨c, e, hgw⟩, hms, hul⟩ h

/-! ## The claims -/

/-- C1 (corrected): when a sync is already in progress (isSyncing =
true, as the second of two un-awaited fullSync calls observes), the
push phase is skipped with the "Sync already in progress" result and
the replica untouched by it, but fullSync still calls syncFromServer
unconditionally: the second call's pull phase runs, reading — and
possibly writing — the replica.  Only the push phase is guarded. -/
theorem secondCall_pull_still_runs (st : ClientState) (penv : PushEnv)
    (plenv : PullEnv) :
    syncToServer true st penv =
      ({ success := false, count := 0, error := some "Sync already in progress" },
       true, st) ∧
    fullSync true st penv plenv =
      Except.ok
        ({ success := false
           synced := 0
           downloaded := (syncFromServer st plenv).1.count }, true,
         (syncFromServer st plenv).2) := by
  refine ⟨rfl, ?_⟩
  rw [fullSync_eq, syncToServer_rejected]
  rfl

/-- C1 counterexample: a guard-rejected fullSync call (isSyncing still
true) nevertheless writes the replica through its pull phase — the
claim that the second call performs no read or write on the local
replica is false. -/
theorem secondCall_writes_replica_counterexample :
    fullSync true stEmpty pushOk pullOkA =
      Except.ok ({ success := false, synced := 0, downloaded := 1 }, true,
        { items := [{ itemARemote with synced := true }], lastSync := some 5 }) ∧
    ([{ itemARemote with synced := true }] : List Item) ≠ stEmpty.items :=
  ⟨rfl, by decide⟩

/-- C2 (confirmed): for every record returned by a successful pull, the
local replica is overwritten with the remote record and marked
synced = true exactly when no local record with that id exists or the
remote updatedAt is strictly greater than the local one; when the
remote updatedAt is less than or equal to the local one, the local
record — synced flag included — is left unchanged. -/
theorem pull_applies_iff_remote_newer (st : ClientState) (env : PullEnv)
    (rs : List Item) (err : Option String) (ts : Option Nat) (r : Item)
    (hgw : env.gateway = .response true (some rs) err ts)
    (hnd : (rs.map (fun x => x.id)).Nodup) (hr : r ∈ rs) :
    (dbGet st.items r.id = none →
      dbGet (syncFromServer st env).2.items r.id =
        some { r with synced := true }) ∧
    (∀ e, dbGet st.items r.id = some e →
      (e.updatedAt < r.updatedAt →
        dbGet (syncFromServer st env).2.items r.id =
          some { r with synced := true }) ∧
      (¬ e.updatedAt < r.updatedAt →
        dbGet (syncFromServer st env).2.items r.id = some e)) := by
  constructor
  · intro hnone
    rw [syncFromServer_items_eq st env rs err ts hgw]
    exact dbGet_applyPulled_applies _ _ _ hnd hr (Or.inl hnone)
  · intro e he
    constructor
    · intro hlt
      rw [syncFromServer_items_eq st env rs err ts hgw]
      exact dbGet_applyPulled_applies _ _ _ hnd hr (Or.inr ⟨e, he, hlt⟩)
    · intro hge
      rw [syncFromServer_items_eq st env rs err ts hgw]
      exact dbGet_applyPulled_skips _ _ _ _ hnd hr he hge

/-- C2 witness: the remote copy with updatedAt 2 overwrites the local
record with updatedAt 1 and arrives marked synced. -/
theorem pull_applies_iff_remote_newer_witness :
    dbGet (syncFromServer stA pullOkA).2.items "a" =
      some { itemARemote with synced := true } := by
  have h := pull_applies_iff_remote_newer stA pullOkA [itemARemote] none
    (some 99) itemARemote rfl (by simp) (by simp)
  exact (h.2 itemA (by decide)).1 (by decide)

/-- C4 (corrected): on a successful pull the persisted lastSyncTime is
the client's clock reading — updateLastSyncTime takes no argument and
stores new Date(); the server-reported timestamp of the fetchSince
response is ignored (the conclusion does not depend on ts). -/
theorem lastSync_client_clock (st : ClientState) (env : PullEnv)
    (rs : List Item) (err : Option String) (ts : Option Nat)
    (h : env.gateway = .response true (some rs) err ts)
    (hul : env.updateLastSyncThrows = none) :
    (syncFromServer st env).2.lastSync = some env.clientNow := by
  rw [syncFromServer_success_eq st env rs err ts h hul]

/-- C4 witness: pull succeeds, client clock reads 5, lastSyncTime is 5. -/
theorem lastSync_client_clock_witness :
    (syncFromServer stEmpty pullEmpty).2.lastSync = some 5 :=
  lastSync_client_clock stEmpty pullEmpty [] none (some 99) rfl rfl

/-- C4 counterexample: the pull succeeds with a server timestamp of 99
in the response while the client clock reads 5; the persisted
lastSyncTime is 5, not the server-reported 99. -/
theorem lastSync_ignores_server_time_counterexample :
    (syncFromServer stEmpty pullEmpty).2.lastSync = some 5 ∧
    (syncFromServer stEmpty pullEmpty).2.lastSync ≠ some 99 :=
  ⟨rfl, by decide⟩

/-- C5 (corrected): the sync metadata is not written only after pulls —
the push phase writes lastSyncTime too, precisely when it uploads a
non-empty batch that the gateway accepts and the replica operations
succeed; on every other push path it is unchanged. -/
theorem push_metadata_characterization (st : ClientState) (env : PushEnv) :
    ((env.getUnsyncedThrows = none ∧ getUnsyncedItems st.items ≠ [] ∧
      (∃ c e, env.gateway = PushGateway.response true c e) ∧
      env.markSyncedThrows = none ∧ env.updateLastSyncThrows = none) →
      (syncToServer false st env).2.2.lastSync = some env.clientNow) ∧
    (¬(env.getUnsyncedThrows = none ∧ getUnsyncedItems st.items ≠ [] ∧
      (∃ c e, env.gateway = PushGateway.response true c e) ∧
      env.markSyncedThrows = none ∧ env.updateLastSyncThrows = none) →
      (syncToServer false st env).2.2.lastSync = st.lastSync) := by
  constructor
  · rintro ⟨h1, h2, ⟨c, e, h3⟩, h4, h5⟩
    rw [syncToServer_success_eq st env c e h1 h2 h3 h4 h5]
  · exact syncToServer_meta_unchanged st env

/-- C5 witness: a successful push of the dirty record writes
lastSyncTime := clientNow. -/
theorem push_metadata_characterization_witness :
    (syncToServer false stA pushOk).2.2.lastSync = some 7 := by
  have h := push_metadata_characterization stA pushOk
  exact h.1 ⟨rfl, by decide, ⟨some 1, none, rfl⟩, rfl, rfl⟩

/-- C5 counterexample: the push phase alone (no pull involved) mutates
the sync metadata, from never-synced to the client clock reading. -/
theorem push_writes_metadata_counterexample :
    stA.lastSync = none ∧
    (syncToServer false stA pushOk).2.2.lastSync = some 7 :=
  ⟨rfl, rfl⟩

/-- Composing fullSync from a known push outcome. -/
theorem fullSync_comp (flag : Bool) (st : ClientState) (penv : PushEnv)
    (plenv : PullEnv) (up : PhaseResult) (flag1 : Bool) (st1 : ClientState)
    (h : syncToServer flag st penv = (up, flag1, st1)) :
    fullSync flag st penv plenv =
      Except.ok
        ({ success := up.success && (syncFromServer st1 plenv).1.success
           synced := up.count
           downloaded := (syncFromServer st1 plenv).1.count }, flag1,
         (syncFromServer st1 plenv).2) := by
  rw [fullSync_eq, h]

/-- C3 (corrected): when the push fails before marking anything (the
batch-upsert throws or the gateway answers failure) and the pull
succeeds, the overall result reports failure, lastSyncTime advances,
the pull runs — and a record that was dirty before the call stays
dirty unless the pull itself overwrote it with a strictly newer remote
record with the same id (the claim's unconditional "remains dirty"
fails in that case). -/
theorem pushFail_pullSuccess_amended (st : ClientState) (penv : PushEnv)
    (plenv : PullEnv) (rs : List Item) (err : Option String)
    (ts : Option Nat)
    (hgu : penv.getUnsyncedThrows = none)
    (hd : getUnsyncedItems st.items ≠ [])
    (hfail : (∃ m, penv.gateway = PushGateway.throws m) ∨
      ∃ c e, penv.gateway = PushGateway.response false c e)
    (hpull : plenv.gateway = .response true (some rs) err ts)
    (hul : plenv.updateLastSyncThrows = none)
    (hnd : (st.items.map (fun x => x.id)).Nodup) :
    fullSync false st penv plenv =
      Except.ok
        ({ success := false
           synced := 0
           downloaded := rs.length }, false,
         { items := applyPulled st.items rs,
           lastSync := some plenv.clientNow }) ∧
    ∀ it ∈ st.items, it.synced = false →
      (∀ r ∈ rs, r.id = it.id → ¬ it.updatedAt < r.updatedAt) →
      dbGet (applyPulled st.items rs) it.id = some it := by
  have hpush : ∃ E, syncToServer false st penv =
      ({ success := false, count := 0, error := E }, false, st) := by
    rcases hfail with ⟨m, hm⟩ | ⟨c, e, hce⟩
    · exact ⟨some m, syncToServer_gateway_throws_eq st penv m hgu hd hm⟩
    · exact ⟨e, syncToServer_gateway_error_eq st penv c e hgu hd hce⟩
  obtain ⟨E, hp⟩ := hpush
  constructor
  · rw [fullSync_comp false st penv plenv _ _ _ hp,
      syncFromServer_success_eq st plenv rs err ts hpull hul]
    rfl
  · intro it hit hdirty hnosup
    exact dbGet_applyPulled_preserved _ _ _ _
      (dbGet_self_of_nodup hnd hit) hnosup

/-- C3 witness: push throws, pull succeeds with an empty delta; the
result is a failure, lastSyncTime advances, the dirty record stays. -/
theorem pushFail_pullSuccess_amended_witness :
    fullSync false stA pushThrows pullEmpty =
      Except.ok
        ({ success := false
           synced := 0
           downloaded := 0 }, false,
         { items := applyPulled stA.items [], lastSync := some 5 }) ∧
    ∀ it ∈ stA.items, it.synced = false →
      (∀ r ∈ ([] : List Item), r.id = it.id → ¬ it.updatedAt < r.updatedAt) →
      dbGet (applyPulled stA.items []) it.id = some it := by
  have h := pushFail_pullSuccess_amended stA pushThrows pullEmpty [] none
    (some 99) rfl (by decide) (Or.inl ⟨"Network error", rfl⟩) rfl rfl (by decide)
  exact h

/-- C3 counterexample: push fails, pull succeeds and carries a newer
remote copy of the record that was dirty before the call; after
fullSync that record has synced = true — dirty records do not
unconditionally remain dirty. -/
theorem pushFail_dirty_cleaned_counterexample :
    itemA.synced = false ∧
    fullSync false stA pushThrows pullOkA =
      Except.ok
        ({ success := false
           synced := 0
           downloaded := 1 }, false,
         { items := [{ itemARemote with synced := true }],
           lastSync := some 5 }) :=
  ⟨rfl, rfl⟩

/-- C6 (corrected): pushing a tombstone does not hide the record from
the remote full-list endpoint: the server schema has no deleted field
(the flag is dropped by the upsert) and GET / serves every stored
document, so the record is still served after a successful push; the
local replica retains the tombstone (deleted stays true; the push
marks it synced and refreshes updatedAt). -/
theorem tombstone_push_retained (st : ClientState) (env : PushEnv)
    (a : Item) (store : List ServerItem) (t : Nat)
    (ha : a ∈ st.items) (hdel : a.deleted = true) (hdirty : a.synced = false)
    (hnd : (st.items.map (fun x => x.id)).Nodup)
    (h1 : env.getUnsyncedThrows = none)
    (h3 : ∃ c e, env.gateway = PushGateway.response true c e)
    (h4 : env.markSyncedThrows = none)
    (h5 : env.updateLastSyncThrows = none) :
    (serverGetAll (serverBatchUpsert store (getUnsyncedItems st.items) t)).any
      (fun s => s.id = a.id) = true ∧
    dbGet (syncToServer false st env).2.2.items a.id =
      some { a with synced := true, updatedAt := env.clientNow } ∧
    ({ a with synced := true, updatedAt := env.clientNow } : Item).deleted
      = true := by
  have hmem : a ∈ getUnsyncedItems st.items :=
    List.mem_filter.mpr ⟨ha, by simp [hdirty]⟩
  have hd : getUnsyncedItems st.items ≠ [] := by
    intro hE
    rw [hE] at hmem
    cases hmem
  refine ⟨?_, ?_, ?_⟩
  · exact (serverGetAll_any_iff _ _).mpr
      (serverBatchUpsert_mem_any _ _ _ _ hmem)
  · obtain ⟨c, e, hgw⟩ := h3
    have hcontains :
        ((getUnsyncedItems st.items).map (fun it => it.id)).contains a.id
          = true := by
      simpa using List.mem_map_of_mem (fun it => it.id) hmem
    rw [syncToServer_success_eq st env c e h1 hd hgw h4 h5]
    rw [dbGet_markSynced, dbGet_self_of_nodup hnd ha]
    simp only [Option.map_some', if_pos hcontains]
  · exact hdel

/-- C6 witness: the tombstoned record is pushed and the server's full
list still carries id "a"; locally the tombstone survives. -/
theorem tombstone_push_retained_witness :
    (serverGetAll
        (serverBatchUpsert store0 (getUnsyncedItems stTomb.items) 10)).any
      (fun s => s.id = "a") = true ∧
    dbGet (syncToServer false stTomb pushOk).2.2.items "a" =
      some { itemATomb with synced := true, updatedAt := 7 } ∧
    ({ itemATomb with synced := true, updatedAt := 7 } : Item).deleted
      = true := by
  have h := tombstone_push_retained stTomb pushOk itemATomb store0 10
    (by decide) rfl rfl (by decide) rfl ⟨some 1, none, rfl⟩ rfl rfl
  exact h

/-- C6 counterexample: after the tombstone for id "a" is pushed, the
remote full-list endpoint still serves a record with that id — the
claim that it is no longer served is false. -/
theorem tombstone_still_served_counterexample :
    itemATomb.deleted = true ∧ itemATomb.synced = false ∧
    (serverGetAll (serverBatchUpsert store0 [itemATomb] 10)).any
      (fun s => s.id = "a") = true := by decide

/-- C7 (confirmed): every local mutation — create, field update, and
delete/tombstone — leaves the affected record with synced = false and
updatedAt = now (even when the caller's update object tries to set
synced), and touches no other record; the mutation operations
themselves never set synced = true. -/
theorem local_mutations_set_dirty (items : List Item)
    (id title description : String) (img : Option String) (now : Nat)
    (u : ItemUpdates) :
    ((addItem items id title description img now).2.synced = false ∧
     (addItem items id title description img now).2.updatedAt = now ∧
     (addItem items id title description img now).2.createdAt = now ∧
     (addItem items id title description img now).2.deleted = false) ∧
    (∀ it, dbGet items id = some it →
      dbGet (updateItem items id u now) id =
        some (applyUpdates it
          { u with updatedAt := some now, synced := some false }) ∧
      (applyUpdates it
        { u with updatedAt := some now, synced := some false }).synced
          = false ∧
      (applyUpdates it
        { u with updatedAt := some now, synced := some false }).updatedAt
          = now) ∧
    (∀ it, dbGet items id = some it →
      dbGet (deleteItem items id now) id =
        some (applyUpdates it
          { deleted := some true, synced := some false,
            updatedAt := some now }) ∧
      (applyUpdates it
        { deleted := some true, synced := some false,
          updatedAt := some now }).synced = false ∧
      (applyUpdates it
        { deleted := some true, synced := some false,
          updatedAt := some now }).updatedAt = now ∧
      (applyUpdates it
        { deleted := some true, synced := some false,
          updatedAt := some now }).deleted = true) ∧
    (∀ k, k ≠ id →
      dbGet (updateItem items id u now) k = dbGet items k ∧
      dbGet (deleteItem items id now) k = dbGet items k ∧
      dbGet (addItem items id title description img now).1 k
        = dbGet items k) := by
  refine ⟨⟨rfl, rfl, rfl, rfl⟩, ?_, ?_, ?_⟩
  · intro it h
    have hid : it.id = id := dbGet_eq_id h
    refine ⟨?_, rfl, rfl⟩
    unfold updateItem dbUpdate
    rw [h]
    have h2 := dbGet_dbPut_self items
      (applyUpdates it { u with updatedAt := some now, synced := some false })
    rw [show (applyUpdates it
      { u with updatedAt := some now, synced := some false }).id = id
      from hid] at h2
    exact h2
  · intro it h
    have hid : it.id = id := dbGet_eq_id h
    refine ⟨?_, rfl, rfl, rfl⟩
    unfold deleteItem dbUpdate
    rw [h]
    have h2 := dbGet_dbPut_self items
      (applyUpdates it
        { deleted := some true, synced := some false, updatedAt := some now })
    rw [show (applyUpdates it
      { deleted := some true, synced := some false,
        updatedAt := some now }).id = id from hid] at h2
    exact h2
  · intro k hk
    refine ⟨?_, ?_, ?_⟩
    · unfold updateItem dbUpdate
      cases h : dbGet items id with
      | none => rfl
      | some it =>
        have hne : k ≠ it.id := fun hh => hk (hh.trans (dbGet_eq_id h))
        exact dbGet_dbPut_ne items _ hne
    · unfold deleteItem dbUpdate
      cases h : dbGet items id with
      | none => rfl
      | some it =>
        have hne : k ≠ it.id := fun hh => hk (hh.trans (dbGet_eq_id h))
        exact dbGet_dbPut_ne items _ hne
    · exact dbGet_append_ne items _ (Ne.symm hk)

/-- C7 witness: an update object carrying synced := true still leaves
the record with synced = false and updatedAt refreshed. -/
theorem local_mutations_set_dirty_witness :
    dbGet (updateItem [itemA] "a" updates0 6) "a" =
      some (applyUpdates itemA
        { updates0 with updatedAt := some 6, synced := some false }) ∧
    (applyUpdates itemA
      { updates0 with updatedAt := some 6, synced := some false }).synced
        = false := by
  have h := local_mutations_set_dirty [itemA] "a" "x" "y" none 6 updates0
  have h2 := h.2.1 itemA (by decide)
  exact ⟨h2.1, h2.2.1⟩

/-- C8 (confirmed): fullSync never lets an exception reach its caller:
for every guard state, replica state and gateway outcome (success,
error response, or thrown transport error, in either phase) it returns
an ok value, and each phase converts any value thrown inside its try
block into a failed-phase result carrying the message. -/
theorem fullSync_no_escape (flag : Bool) (st : ClientState)
    (penv : PushEnv) (plenv : PullEnv) :
    (∃ out, fullSync flag st penv plenv = Except.ok out) ∧
    (∀ m st1, syncToServerBody st penv = .error (m, st1) →
      syncToServer false st penv =
        ({ success := false, count := 0, error := some m }, false, st1)) ∧
    (∀ m st1, syncFromServerBody st plenv = .error (m, st1) →
      syncFromServer st plenv =
        ({ success := false, count := 0, error := some m }, st1)) := by
  refine ⟨⟨_, rfl⟩, ?_, ?_⟩
  · intro m st1 h
    unfold syncToServer
    rw [h]
    rfl
  · intro m st1 h
    unfold syncFromServer
    rw [h]

/-- C8 witness: both gateways throw; the thrown messages surface in
the phase results and fullSync still returns ok. -/
theorem fullSync_no_escape_witness :
    (∃ out, fullSync false stA pushThrows pullThrows = Except.ok out) ∧
    syncToServer false stA pushThrows =
      ({ success := false, count := 0, error := some "Network error" },
       false, stA) ∧
    syncFromServer stA pullThrows =
      ({ success := false, count := 0, error := some "Failed to fetch" },
       stA) := by
  have h := fullSync_no_escape false stA pushThrows pullThrows
  exact ⟨h.1, h.2.1 "Network error" stA rfl, h.2.2 "Failed to fetch" stA rfl⟩

/-- C9 (corrected): updateItem (and deleteItem) on an absent id is a
silent no-op — Dexie's update matches zero records and resolves
normally, where the spec's mutateLocal contract demands a NotFound
error; on a present id it merges the changes with updatedAt = now and
synced = false, agreeing with the spec contract. -/
theorem updateItem_merge_or_noop (items : List Item) (id : String)
    (u : ItemUpdates) (now : Nat) :
    (dbGet items id = none → updateItem items id u now = items ∧
      deleteItem items id now = items) ∧
    (∀ it, dbGet items id = some it →
      updateItem items id u now =
        dbPut items (applyUpdates it
          { u with updatedAt := some now, synced := some false }) ∧
      mutateLocalSpec items id u now =
        Except.ok (updateItem items id u now)) := by
  constructor
  · intro h
    constructor
    · unfold updateItem dbUpdate
      rw [h]
    · unfold deleteItem dbUpdate
      rw [h]
  · intro it h
    constructor
    · unfold updateItem dbUpdate
      rw [h]
    · unfold mutateLocalSpec updateItem dbUpdate
      rw [h]
      rfl

/-- C9 witness: absent id is a no-op; present id merges with
synced = false and updatedAt = now. -/
theorem updateItem_merge_or_noop_witness :
    updateItem [] "a" updates0 5 = [] ∧
    updateItem [itemA] "a" updates0 6 =
      dbPut [itemA] (applyUpdates itemA
        { updates0 with updatedAt := some 6, synced := some false }) := by
  have h1 := (updateItem_merge_or_noop [] "a" updates0 5).1 rfl
  have h2 := (updateItem_merge_or_noop [itemA] "a" updates0 6).2 itemA
    (by decide)
  exact ⟨h1.1, h2.1⟩

/-- C9 counterexample: on an empty replica, updateItem of id "a"
returns the replica unchanged with no error, while the spec-modelled
mutateLocal errors with NotFound. -/
theorem updateItem_missing_noop_counterexample :
    updateItem [] "a" updates0 5 = [] ∧
    mutateLocalSpec [] "a" updates0 5 = Except.error "NotFound" :=
  ⟨rfl, rfl⟩

/-- C10 (confirmed): the isSyncing flag is maintained atomically with
respect to outcomes: a guard-rejected call leaves the flag and the
replica untouched, and every call that passes the guard ends with the
flag cleared on every completion path — success, empty batch, gateway
error, and every thrown step — so no execution leaves the service
permanently rejecting future syncs. -/
theorem guard_flag_integrity (st : ClientState) (env : PushEnv) :
    syncToServer true st env =
      ({ success := false, count := 0, error := some "Sync already in progress" },
       true, st) ∧
    (syncToServer false st env).2.1 = false :=
  ⟨syncToServer_rejected st env, syncToServer_flag_cleared st env⟩

end PWA
